import Mathlib

set_option linter.unnecessarySeqFocus false

/-!
Verification development for the password analyzer of src/lab1_password_audit.py.

The source is embedded shallowly: strings are Lean String values, character
classification is ASCII (the design notes of the spec fix ASCII semantics for
the character predicates), and the localized issue and recommendation message
strings of the source are represented by abstract kinds, one kind per distinct
message string, as the data model of the spec directs.  The Python date parsing
call datetime.strptime(dob, "%d.%m.%Y") is embedded by parseDate below,
following the CPython regex for these directives and the calendar validation of
the datetime constructor.
-/

namespace Lab1

/-- ASCII decimal digit test, modelling the digit classification used by the
source on ASCII input. -/
def isDigitChar (c : Char) : Bool := decide ('0' ≤ c ∧ c ≤ '9')

/-- ASCII lowercase letter test. -/
def isLowerChar (c : Char) : Bool := decide ('a' ≤ c ∧ c ≤ 'z')

/-- ASCII uppercase letter test. -/
def isUpperChar (c : Char) : Bool := decide ('A' ≤ c ∧ c ≤ 'Z')

/-- ASCII alphanumeric test, modelling c.isalnum() of the source. -/
def isAlnumChar (c : Char) : Bool := isLowerChar c || isUpperChar c || isDigitChar c

/-- ASCII lowercasing of one character, modelling str.lower of the source. -/
def toLowerChar (c : Char) : Char :=
  if 'A' ≤ c ∧ c ≤ 'Z' then Char.ofNat (c.toNat + 32) else c

/-- Lowercased copy of a string (password.lower() in the source). -/
def lowerStr (s : String) : String := ⟨s.data.map toLowerChar⟩

/-- Characters deleted by the normalizer of the source: the regex class of
whitespace, underscore, hyphen and period. -/
def isSepChar (c : Char) : Bool :=
  c == ' ' || c == '\t' || c == '\n' || c == '\r' || c == '\x0b' || c == '\x0c' ||
    c == '_' || c == '-' || c == '.'

/-- Normalizer of the source: lowercase, then delete every whitespace,
underscore, hyphen and period character.  The leading strip of the source is
subsumed by the deletion, since every stripped character is whitespace and is
deleted anyway. -/
def normalize (s : String) : String :=
  ⟨(s.data.map toLowerChar).filter (fun c => !isSepChar c)⟩

/-- Python substring membership, needle in hay, as used by the source for all
containment checks. -/
def strIn (needle hay : String) : Prop := needle.data <:+: hay.data

instance (n h : String) : Decidable (strIn n h) := List.decidableInfix n.data h.data

/-- Numeric value of a list of ASCII digit characters, most significant first. -/
def digitsVal (l : List Char) : Nat := l.foldl (fun a c => a * 10 + (c.toNat - 48)) 0

/-- Splitting of a character list at every period, keeping empty fields.  This
is the field decomposition induced by the anchored CPython strptime regex for
the format "%d.%m.%Y", whose day and month sub-patterns match digit characters
only (see parseDate). -/
def splitDots : List Char → List (List Char)
  | [] => [[]]
  | c :: cs =>
    if c = '.' then [] :: splitDots cs
    else
      match splitDots cs with
      | [] => [[c]]
      | f :: rest => (c :: f) :: rest

/-- Gregorian leap year rule, as the Python datetime module uses. -/
def isLeapYear (y : Nat) : Bool := decide ((y % 4 = 0 ∧ y % 100 ≠ 0) ∨ y % 400 = 0)

/-- Number of days of month m of year y for months 1..12; other month values
give 31, unreachable behind the month range guard of parseDate. -/
def daysInMonth (y m : Nat) : Nat :=
  if m = 2 then (if isLeapYear y then 29 else 28)
  else if m = 4 ∨ m = 6 ∨ m = 9 ∨ m = 11 then 30
  else 31

/-- Embedding of datetime.strptime(dob, "%d.%m.%Y") of the source, returning
day, month and year on success.  The CPython regex for this format accepts a
day field of one or two digits with value 1..31 and a month field of one or two
digits with value 1..12 (a leading zero is optional for both), separated by
literal periods from a year field of exactly four digits that must end the
string; the datetime constructor then rejects year 0 and a day beyond the
length of the month, raising the ValueError that the source catches. -/
def parseDate (s : String) : Option (Nat × Nat × Nat) :=
  match splitDots s.data with
  | [f1, f2, f3] =>
    if (∀ c ∈ f1, isDigitChar c = true) ∧ (f1.length = 1 ∨ f1.length = 2) ∧
        (∀ c ∈ f2, isDigitChar c = true) ∧ (f2.length = 1 ∨ f2.length = 2) ∧
        (∀ c ∈ f3, isDigitChar c = true) ∧ f3.length = 4 ∧
        1 ≤ digitsVal f1 ∧ digitsVal f1 ≤ 31 ∧
        1 ≤ digitsVal f2 ∧ digitsVal f2 ≤ 12 ∧
        1 ≤ digitsVal f3 ∧ digitsVal f1 ≤ daysInMonth (digitsVal f3) (digitsVal f2)
    then some (digitsVal f1, digitsVal f2, digitsVal f3)
    else none
  | _ => none

/-- Two-digit zero-padded decimal rendering, modelling the format 02d of the
source. -/
def pad2 (n : Nat) : String := if n < 10 then "0" ++ toString n else toString n

/-- Four-digit zero-padded decimal rendering, modelling the format 04d of the
source. -/
def pad4 (n : Nat) : String :=
  if n < 10 then "000" ++ toString n
  else if n < 100 then "00" ++ toString n
  else if n < 1000 then "0" ++ toString n
  else toString n

/-- Recoverable error of the core: the ValueError raised by strptime or by the
datetime constructor, caught inside analyze_password. -/
inductive DateError where
  | InvalidDateFormat
  deriving DecidableEq, Repr

/-- Birth token extractor of the source: on a parsed date, the set of the day,
month, four-digit year, two-digit year and the six concatenations of the
source, with set semantics collapsing coinciding strings. -/
def extract_birth_tokens (dob : String) : Except DateError (Finset String) :=
  match parseDate dob with
  | none => Except.error DateError.InvalidDateFormat
  | some (d, m, y) =>
    let dd := pad2 d
    let mm := pad2 m
    let yyyy := pad4 y
    let yy := (pad4 y).drop 2
    Except.ok {dd, mm, yyyy, yy, dd ++ mm, mm ++ dd,
               yyyy ++ mm ++ dd, dd ++ mm ++ yyyy, yy ++ mm ++ dd, dd ++ mm ++ yy}

/-- Presence of the four character classes in a password. -/
structure CharClasses where
  lower : Bool
  upper : Bool
  digit : Bool
  special : Bool
  deriving DecidableEq, Repr

/-- Character class classifier of the source: a character is special when it is
not alphanumeric. -/
def char_classes (password : String) : CharClasses :=
  ⟨password.data.any isLowerChar, password.data.any isUpperChar,
   password.data.any isDigitChar, password.data.any (fun c => !isAlnumChar c)⟩

/-- Number of character classes present, the sum of the four booleans computed
by the source. -/
def classCount (c : CharClasses) : Nat :=
  c.lower.toNat + c.upper.toNat + c.digit.toNat + c.special.toNat

/-- Reference strings of the sequence detector of the source. -/
def seqRefs : List String :=
  ["0123456789", "abcdefghijklmnopqrstuvwxyz", "qwertyuiop", "asdfghjkl", "zxcvbnm"]

/-- Sequence detector of the source: lowercase the password and test every
contiguous four-character window of every reference string for substring
occurrence. -/
def has_sequences (password : String) : Bool :=
  let p := lowerStr password
  seqRefs.any fun seq =>
    (List.range (seq.length - 3)).any fun i =>
      decide ((seq.data.drop i).take 4 <:+: p.data)

/-- Detector for three equal consecutive characters, modelling the regex search
of the source whose dot does not match a newline character. -/
def hasTripleRepeat : List Char → Bool
  | a :: b :: c :: rest =>
    (decide (a ≠ '\n') && a == b && b == c) || hasTripleRepeat (b :: c :: rest)
  | _ => false

/-- Fixed common word list of the source (a set used only through membership
iteration, embedded as the list of its elements). -/
def COMMON_WORDS : List String :=
  ["password", "qwerty", "admin", "welcome", "login", "user",
   "iloveyou", "123456", "12345678", "111111", "000000"]

/-- Issue kinds, one per distinct issue message string of the source. -/
inductive Issue where
  | CONTAINS_FIRST_NAME
  | CONTAINS_LAST_NAME
  | CONTAINS_BIRTH_FRAGMENT
  | INVALID_DOB_FORMAT
  | TOO_SHORT
  | MEDIUM_LENGTH
  | SINGLE_CHAR_CLASS
  | TWO_CHAR_CLASSES
  | NO_SPECIAL_CHARS
  | REPEATED_CHARS
  | HAS_SEQUENCE
  | COMMON_WORD
  deriving DecidableEq, Repr

/-- Recommendation kinds, one per distinct recommendation message string of the
source. -/
inductive RecKind where
  | AVOID_FIRST_NAME
  | AVOID_LAST_NAME
  | AVOID_BIRTH_DATE
  | USE_DOB_FORMAT
  | USE_AT_LEAST_12
  | PREFER_12_TO_16
  | GOOD_LENGTH_NOTE
  | ADD_CLASS_MIX
  | ADD_THIRD_CLASS
  | ADD_SPECIALS
  | AVOID_REPEATS
  | AVOID_SEQUENCES
  | AVOID_COMMON_WORDS
  | GOOD_PRACTICE
  deriving DecidableEq, Repr

/-- Contribution of one conditional block of analyze_password: the issues it
appends, the recommendations it appends, and the amount it subtracts from the
score. -/
structure Contrib where
  issues : List Issue
  recs : List RecKind
  pen : Nat
  deriving DecidableEq, Repr

/-- First personal data check of the source: normalized first name nonempty and
contained in the normalized password. -/
def firstNameCheck (p_norm fn_norm : String) : Contrib :=
  if fn_norm ≠ "" ∧ strIn fn_norm p_norm then
    ⟨[Issue.CONTAINS_FIRST_NAME], [RecKind.AVOID_FIRST_NAME], 3⟩
  else ⟨[], [], 0⟩

/-- Second personal data check of the source, for the last name. -/
def lastNameCheck (p_norm ln_norm : String) : Contrib :=
  if ln_norm ≠ "" ∧ strIn ln_norm p_norm then
    ⟨[Issue.CONTAINS_LAST_NAME], [RecKind.AVOID_LAST_NAME], 3⟩
  else ⟨[], [], 0⟩

/-- Birth date check of the source: on a parsed date, look for tokens occurring
in the raw password; on a date parsing failure, record the invalid format issue
and continue. -/
def dobCheck (password dob : String) : Contrib :=
  match extract_birth_tokens dob with
  | Except.ok tokens =>
    if (tokens.filter (fun t => strIn t password)).Nonempty then
      ⟨[Issue.CONTAINS_BIRTH_FRAGMENT], [RecKind.AVOID_BIRTH_DATE], 3⟩
    else ⟨[], [], 0⟩
  | Except.error _ => ⟨[Issue.INVALID_DOB_FORMAT], [RecKind.USE_DOB_FORMAT], 1⟩

/-- Length check of the source on the raw password, with its four bands. -/
def lengthCheck (password : String) : Contrib :=
  if password.length < 8 then ⟨[Issue.TOO_SHORT], [RecKind.USE_AT_LEAST_12], 4⟩
  else if password.length < 12 then ⟨[Issue.MEDIUM_LENGTH], [RecKind.PREFER_12_TO_16], 2⟩
  else if password.length < 16 then ⟨[], [RecKind.GOOD_LENGTH_NOTE], 0⟩
  else ⟨[], [], 0⟩

/-- Character class count check of the source. -/
def classCheck (password : String) : Contrib :=
  let c := char_classes password
  if classCount c ≤ 1 then ⟨[Issue.SINGLE_CHAR_CLASS], [RecKind.ADD_CLASS_MIX], 4⟩
  else if classCount c = 2 then ⟨[Issue.TWO_CHAR_CLASSES], [RecKind.ADD_THIRD_CLASS], 2⟩
  else if classCount c = 3 ∧ c.special = false then
    ⟨[Issue.NO_SPECIAL_CHARS], [RecKind.ADD_SPECIALS], 1⟩
  else ⟨[], [], 0⟩

/-- Repeated character check of the source. -/
def repeatCheck (password : String) : Contrib :=
  if hasTripleRepeat password.data then ⟨[Issue.REPEATED_CHARS], [RecKind.AVOID_REPEATS], 1⟩
  else ⟨[], [], 0⟩

/-- Sequence check of the source. -/
def seqCheck (password : String) : Contrib :=
  if has_sequences password then ⟨[Issue.HAS_SEQUENCE], [RecKind.AVOID_SEQUENCES], 2⟩
  else ⟨[], [], 0⟩

/-- Common word check of the source on the lowercased raw password. -/
def commonCheck (password : String) : Contrib :=
  if COMMON_WORDS.any (fun w => decide (strIn w (lowerStr password))) then
    ⟨[Issue.COMMON_WORD], [RecKind.AVOID_COMMON_WORDS], 3⟩
  else ⟨[], [], 0⟩

/-- The eight conditional blocks of analyze_password, in source order. -/
def analyzeChecks (password firstName lastName dob : String) : List Contrib :=
  [firstNameCheck (normalize password) (normalize firstName),
   lastNameCheck (normalize password) (normalize lastName),
   dobCheck password dob,
   lengthCheck password,
   classCheck password,
   repeatCheck password,
   seqCheck password,
   commonCheck password]

/-- Issue list accumulated by analyze_password, in detection order. -/
def analyzeIssues (password firstName lastName dob : String) : List Issue :=
  ((analyzeChecks password firstName lastName dob).map Contrib.issues).flatten

/-- Total of all penalties subtracted from the initial score of 10. -/
def totalPenalty (password firstName lastName dob : String) : Nat :=
  ((analyzeChecks password firstName lastName dob).map Contrib.pen).sum

/-- Recommendation list accumulated by analyze_password before deduplication,
with the generic good practice entry appended when no issue was recorded. -/
def analyzeRawRecs (password firstName lastName dob : String) : List RecKind :=
  ((analyzeChecks password firstName lastName dob).map Contrib.recs).flatten ++
    (if analyzeIssues password firstName lastName dob = [] then [RecKind.GOOD_PRACTICE] else [])

/-- Deduplication keeping the first occurrence of every element, with an
accumulator of elements already seen; this is the behavior of the
dict.fromkeys deduplication of the source. -/
def dedupFirstAux [DecidableEq α] (seen : List α) : List α → List α
  | [] => []
  | x :: xs => if x ∈ seen then dedupFirstAux seen xs else x :: dedupFirstAux (x :: seen) xs

/-- Deduplication keeping first occurrences, modelling list(dict.fromkeys(recs))
of the source. -/
def dedupFirst [DecidableEq α] (l : List α) : List α := dedupFirstAux [] l

/-- Result record of analyze_password. -/
structure AnalysisResult where
  score : Int
  issues : List Issue
  recommendations : List RecKind
  length : Nat
  classes : CharClasses
  deriving DecidableEq, Repr

/-- Aggregator of the source: run the eight checks in order, clamp the score
once at the end, append the generic recommendation when no issue was found, and
deduplicate the recommendations keeping first occurrences.  The embedding is a
total function: no exception escapes, the only fallible step being the date
parse handled inside dobCheck. -/
def analyze_password (password firstName lastName dob : String) : AnalysisResult :=
  ⟨max 1 (min 10 (10 - (totalPenalty password firstName lastName dob : Int))),
   analyzeIssues password firstName lastName dob,
   dedupFirst (analyzeRawRecs password firstName lastName dob),
   password.length,
   char_classes password⟩

/-- Modelled from the wording of the strict format claim: a real calendar date
written exactly as DD.MM.YYYY, with a two-digit day in 01..31, a two-digit
month in 01..12 and a four-digit year of a valid calendar date. -/
def isStrictDDMMYYYY (s : String) : Bool :=
  match s.data with
  | [d1, d2, q1, m1, m2, q2, y1, y2, y3, y4] =>
    q1 == '.' && q2 == '.' &&
    [d1, d2, m1, m2, y1, y2, y3, y4].all isDigitChar &&
    (decide (1 ≤ digitsVal [d1, d2]) &&
     decide (digitsVal [d1, d2] ≤ daysInMonth (digitsVal [y1, y2, y3, y4]) (digitsVal [m1, m2])) &&
     decide (1 ≤ digitsVal [m1, m2]) && decide (digitsVal [m1, m2] ≤ 12) &&
     decide (1 ≤ digitsVal [y1, y2, y3, y4]))
  | _ => false

/-- Declarative description of the strings accepted by the date parsing of the
source, stated independently of the parser as a decomposition into digit
fields: a day of one or two digits, a month of one or two digits, a year of
exactly four digits, separated by periods, forming a real calendar date of a
positive year. -/
def IsFlexDate (s : String) : Prop :=
  ∃ f1 f2 f3 : List Char,
    f1 ++ '.' :: (f2 ++ '.' :: f3) = s.data ∧
    (∀ c ∈ f1, isDigitChar c = true) ∧
    (∀ c ∈ f2, isDigitChar c = true) ∧
    (∀ c ∈ f3, isDigitChar c = true) ∧
    (f1.length = 1 ∨ f1.length = 2) ∧ (f2.length = 1 ∨ f2.length = 2) ∧ f3.length = 4 ∧
    1 ≤ digitsVal f1 ∧ 1 ≤ digitsVal f2 ∧ digitsVal f2 ≤ 12 ∧ 1 ≤ digitsVal f3 ∧
    digitsVal f1 ≤ daysInMonth (digitsVal f3) (digitsVal f2)

example : normalize "  Jo-hn_Doe. " = "johndoe" := by decide

example : parseDate "15.06.1990" = some (15, 6, 1990) := by decide

example : parseDate "1.1.1990" = some (1, 1, 1990) := by decide

example : parseDate "31.02.2000" = none := by decide

example : has_sequences "myqwerty1" = true := by decide

example : has_sequences "Xk9Lm2Pq" = false := by decide

example : hasTripleRepeat "aab111b".data = true := by decide

example : classCount (char_classes "aB3!") = 4 := by decide

/-! ### Properties of first-occurrence deduplication -/

theorem mem_dedupFirstAux [DecidableEq α] (x : α) (seen l : List α) :
    x ∈ dedupFirstAux seen l ↔ x ∈ l ∧ x ∉ seen := by
  induction l generalizing seen with
  | nil => simp [dedupFirstAux]
  | cons a as ih =>
    rw [dedupFirstAux]
    split_ifs with ha
    · rw [ih]
      simp only [List.mem_cons]
      constructor
      · rintro ⟨hx, hs⟩
        exact ⟨Or.inr hx, hs⟩
      · rintro ⟨hx | hx, hs⟩
        · exact absurd (hx ▸ ha) hs
        · exact ⟨hx, hs⟩
    · simp only [List.mem_cons, ih, List.mem_cons]
      constructor
      · rintro (rfl | ⟨hx, hs⟩)
        · exact ⟨Or.inl rfl, ha⟩
        · exact ⟨Or.inr hx, fun h => hs (Or.inr h)⟩
      · rintro ⟨rfl | hx, hs⟩
        · exact Or.inl rfl
        · by_cases hxa : x = a
          · exact Or.inl hxa
          · exact Or.inr ⟨hx, fun h => h.elim hxa hs⟩

theorem dedupFirstAux_sublist [DecidableEq α] (seen l : List α) :
    (dedupFirstAux seen l).Sublist l := by
  induction l generalizing seen with
  | nil => simp [dedupFirstAux]
  | cons a as ih =>
    rw [dedupFirstAux]
    split_ifs with ha
    · exact List.Sublist.cons a (ih seen)
    · exact List.Sublist.cons₂ a (ih (a :: seen))

theorem nodup_dedupFirstAux [DecidableEq α] (seen l : List α) :
    (dedupFirstAux seen l).Nodup := by
  induction l generalizing seen with
  | nil => simp [dedupFirstAux]
  | cons a as ih =>
    rw [dedupFirstAux]
    split_ifs with ha
    · exact ih seen
    · refine List.nodup_cons.mpr ⟨?_, ih (a :: seen)⟩
      intro hmem
      rcases (mem_dedupFirstAux a (a :: seen) as).mp hmem with ⟨_, hs⟩
      exact hs (List.mem_cons_self a seen)

/-! ### Shape of the contribution of each check -/

theorem issues_firstNameCheck_sub {x : Issue} {p f : String}
    (h : x ∈ (firstNameCheck p f).issues) : x = Issue.CONTAINS_FIRST_NAME := by
  rw [firstNameCheck] at h
  split_ifs at h <;> simp_all

theorem issues_lastNameCheck_sub {x : Issue} {p f : String}
    (h : x ∈ (lastNameCheck p f).issues) : x = Issue.CONTAINS_LAST_NAME := by
  rw [lastNameCheck] at h
  split_ifs at h <;> simp_all

theorem issues_dobCheck_sub {x : Issue} {p d : String}
    (h : x ∈ (dobCheck p d).issues) :
    x = Issue.CONTAINS_BIRTH_FRAGMENT ∨ x = Issue.INVALID_DOB_FORMAT := by
  rw [dobCheck] at h
  rcases hE : extract_birth_tokens d with e | t <;> rw [hE] at h <;> dsimp only at h
  · simp at h
    exact Or.inr h
  · split_ifs at h <;> simp_all

theorem issues_lengthCheck_sub {x : Issue} {p : String}
    (h : x ∈ (lengthCheck p).issues) : x = Issue.TOO_SHORT ∨ x = Issue.MEDIUM_LENGTH := by
  rw [lengthCheck] at h
  split_ifs at h <;> simp_all

theorem issues_classCheck_sub {x : Issue} {p : String}
    (h : x ∈ (classCheck p).issues) :
    x = Issue.SINGLE_CHAR_CLASS ∨ x = Issue.TWO_CHAR_CLASSES ∨ x = Issue.NO_SPECIAL_CHARS := by
  rw [classCheck] at h
  split_ifs at h <;> simp_all

theorem issues_repeatCheck_sub {x : Issue} {p : String}
    (h : x ∈ (repeatCheck p).issues) : x = Issue.REPEATED_CHARS := by
  rw [repeatCheck] at h
  split_ifs at h <;> simp_all

theorem issues_seqCheck_sub {x : Issue} {p : String}
    (h : x ∈ (seqCheck p).issues) : x = Issue.HAS_SEQUENCE := by
  rw [seqCheck] at h
  split_ifs at h <;> simp_all

theorem issues_commonCheck_sub {x : Issue} {p : String}
    (h : x ∈ (commonCheck p).issues) : x = Issue.COMMON_WORD := by
  rw [commonCheck] at h
  split_ifs at h <;> simp_all

theorem mem_analyzeIssues (x : Issue) (password firstName lastName dob : String) :
    x ∈ analyzeIssues password firstName lastName dob ↔
      x ∈ (firstNameCheck (normalize password) (normalize firstName)).issues ∨
      x ∈ (lastNameCheck (normalize password) (normalize lastName)).issues ∨
      x ∈ (dobCheck password dob).issues ∨
      x ∈ (lengthCheck password).issues ∨
      x ∈ (classCheck password).issues ∨
      x ∈ (repeatCheck password).issues ∨
      x ∈ (seqCheck password).issues ∨
      x ∈ (commonCheck password).issues := by
  simp [analyzeIssues, analyzeChecks]

theorem too_short_lengthCheck (p : String) :
    Issue.TOO_SHORT ∈ (lengthCheck p).issues ↔ p.length < 8 := by
  rw [lengthCheck]
  split_ifs with h1 h2 h3 <;> simp [h1]

theorem medium_lengthCheck (p : String) :
    Issue.MEDIUM_LENGTH ∈ (lengthCheck p).issues ↔ 8 ≤ p.length ∧ p.length < 12 := by
  rw [lengthCheck]
  split_ifs with h1 h2 h3 <;> simp <;> omega

theorem single_class_classCheck (p : String) :
    Issue.SINGLE_CHAR_CLASS ∈ (classCheck p).issues ↔ classCount (char_classes p) ≤ 1 := by
  rw [classCheck]
  split_ifs with h1 h2 h3 <;> simp <;> omega

theorem two_classes_classCheck (p : String) :
    Issue.TWO_CHAR_CLASSES ∈ (classCheck p).issues ↔ classCount (char_classes p) = 2 := by
  rw [classCheck]
  split_ifs with h1 h2 h3 <;> simp <;> omega

theorem no_special_classCheck (p : String) :
    Issue.NO_SPECIAL_CHARS ∈ (classCheck p).issues ↔
      classCount (char_classes p) = 3 ∧ (char_classes p).special = false := by
  rw [classCheck]
  split_ifs with h1 h2 h3 <;> simp_all <;> omega

theorem dobCheck_error (password dob : String)
    (h : extract_birth_tokens dob = Except.error DateError.InvalidDateFormat) :
    dobCheck password dob = ⟨[Issue.INVALID_DOB_FORMAT], [RecKind.USE_DOB_FORMAT], 1⟩ := by
  rw [dobCheck, h]

theorem issues_nil_iff_pen_firstNameCheck (p f : String) :
    (firstNameCheck p f).issues = [] ↔ (firstNameCheck p f).pen = 0 := by
  rw [firstNameCheck]
  split_ifs <;> simp

theorem issues_nil_iff_pen_lastNameCheck (p f : String) :
    (lastNameCheck p f).issues = [] ↔ (lastNameCheck p f).pen = 0 := by
  rw [lastNameCheck]
  split_ifs <;> simp

theorem issues_nil_iff_pen_dobCheck (p d : String) :
    (dobCheck p d).issues = [] ↔ (dobCheck p d).pen = 0 := by
  rw [dobCheck]
  cases extract_birth_tokens d with
  | ok t =>
    dsimp only
    split_ifs <;> simp
  | error e => simp

theorem issues_nil_iff_pen_lengthCheck (p : String) :
    (lengthCheck p).issues = [] ↔ (lengthCheck p).pen = 0 := by
  rw [lengthCheck]
  split_ifs <;> simp

theorem issues_nil_iff_pen_classCheck (p : String) :
    (classCheck p).issues = [] ↔ (classCheck p).pen = 0 := by
  rw [classCheck]
  split_ifs <;> simp

theorem issues_nil_iff_pen_repeatCheck (p : String) :
    (repeatCheck p).issues = [] ↔ (repeatCheck p).pen = 0 := by
  rw [repeatCheck]
  split_ifs <;> simp

theorem issues_nil_iff_pen_seqCheck (p : String) :
    (seqCheck p).issues = [] ↔ (seqCheck p).pen = 0 := by
  rw [seqCheck]
  split_ifs <;> simp

theorem issues_nil_iff_pen_commonCheck (p : String) :
    (commonCheck p).issues = [] ↔ (commonCheck p).pen = 0 := by
  rw [commonCheck]
  split_ifs <;> simp

/-! ### Claim theorems -/

/-- C1: for every input, the score field of the result of analyze is an integer
in the inclusive range 1..10, no matter how many penalties accumulate. -/
theorem analyze_score_in_range (password firstName lastName dob : String) :
    1 ≤ (analyze_password password firstName lastName dob).score ∧
    (analyze_password password firstName lastName dob).score ≤ 10 :=
  ⟨le_max_left 1 _, max_le (by norm_num) (min_le_left 10 _)⟩

/-- C3: for every input, the recommendations of the result of analyze contain
no two equal entries, and they are the recommendations produced by the
aggregation steps in order of first occurrence: a sublist of the raw
recommendation sequence with exactly its elements. -/
theorem analyze_recommendations_dedup (password firstName lastName dob : String) :
    (analyze_password password firstName lastName dob).recommendations.Nodup ∧
    (analyze_password password firstName lastName dob).recommendations.Sublist
      (analyzeRawRecs password firstName lastName dob) ∧
    ∀ x, x ∈ (analyze_password password firstName lastName dob).recommendations ↔
      x ∈ analyzeRawRecs password firstName lastName dob := by
  refine ⟨nodup_dedupFirstAux _ _, dedupFirstAux_sublist _ _, fun x => ?_⟩
  show x ∈ dedupFirstAux [] (analyzeRawRecs password firstName lastName dob) ↔ _
  rw [mem_dedupFirstAux]
  simp

theorem too_short_mem_analyze (password firstName lastName dob : String) :
    Issue.TOO_SHORT ∈ (analyze_password password firstName lastName dob).issues ↔
      password.length < 8 := by
  show Issue.TOO_SHORT ∈ analyzeIssues password firstName lastName dob ↔ _
  rw [mem_analyzeIssues]
  constructor
  · rintro (h | h | h | h | h | h | h | h) <;>
      first
      | exact (too_short_lengthCheck password).mp h
      | exact absurd (issues_firstNameCheck_sub h) (by decide)
      | exact absurd (issues_lastNameCheck_sub h) (by decide)
      | exact absurd (issues_repeatCheck_sub h) (by decide)
      | exact absurd (issues_seqCheck_sub h) (by decide)
      | exact absurd (issues_commonCheck_sub h) (by decide)
      | (rcases issues_dobCheck_sub h with h2 | h2 <;> exact absurd h2 (by decide))
      | (rcases issues_classCheck_sub h with h2 | h2 | h2 <;> exact absurd h2 (by decide))
  · intro h
    exact Or.inr (Or.inr (Or.inr (Or.inl ((too_short_lengthCheck password).mpr h))))

theorem medium_mem_analyze (password firstName lastName dob : String) :
    Issue.MEDIUM_LENGTH ∈ (analyze_password password firstName lastName dob).issues ↔
      8 ≤ password.length ∧ password.length < 12 := by
  show Issue.MEDIUM_LENGTH ∈ analyzeIssues password firstName lastName dob ↔ _
  rw [mem_analyzeIssues]
  constructor
  · rintro (h | h | h | h | h | h | h | h) <;>
      first
      | exact (medium_lengthCheck password).mp h
      | exact absurd (issues_firstNameCheck_sub h) (by decide)
      | exact absurd (issues_lastNameCheck_sub h) (by decide)
      | exact absurd (issues_repeatCheck_sub h) (by decide)
      | exact absurd (issues_seqCheck_sub h) (by decide)
      | exact absurd (issues_commonCheck_sub h) (by decide)
      | (rcases issues_dobCheck_sub h with h2 | h2 <;> exact absurd h2 (by decide))
      | (rcases issues_classCheck_sub h with h2 | h2 | h2 <;> exact absurd h2 (by decide))
  · intro h
    exact Or.inr (Or.inr (Or.inr (Or.inl ((medium_lengthCheck password).mpr h))))

theorem single_class_mem_analyze (password firstName lastName dob : String) :
    Issue.SINGLE_CHAR_CLASS ∈ (analyze_password password firstName lastName dob).issues ↔
      classCount (char_classes password) ≤ 1 := by
  show Issue.SINGLE_CHAR_CLASS ∈ analyzeIssues password firstName lastName dob ↔ _
  rw [mem_analyzeIssues]
  constructor
  · rintro (h | h | h | h | h | h | h | h) <;>
      first
      | exact (single_class_classCheck password).mp h
      | exact absurd (issues_firstNameCheck_sub h) (by decide)
      | exact absurd (issues_lastNameCheck_sub h) (by decide)
      | exact absurd (issues_repeatCheck_sub h) (by decide)
      | exact absurd (issues_seqCheck_sub h) (by decide)
      | exact absurd (issues_commonCheck_sub h) (by decide)
      | (rcases issues_dobCheck_sub h with h2 | h2 <;> exact absurd h2 (by decide))
      | (rcases issues_lengthCheck_sub h with h2 | h2 <;> exact absurd h2 (by decide))
  · intro h
    exact Or.inr (Or.inr (Or.inr (Or.inr (Or.inl ((single_class_classCheck password).mpr h)))))

theorem two_classes_mem_analyze (password firstName lastName dob : String) :
    Issue.TWO_CHAR_CLASSES ∈ (analyze_password password firstName lastName dob).issues ↔
      classCount (char_classes password) = 2 := by
  show Issue.TWO_CHAR_CLASSES ∈ analyzeIssues password firstName lastName dob ↔ _
  rw [mem_analyzeIssues]
  constructor
  · rintro (h | h | h | h | h | h | h | h) <;>
      first
      | exact (two_classes_classCheck password).mp h
      | exact absurd (issues_firstNameCheck_sub h) (by decide)
      | exact absurd (issues_lastNameCheck_sub h) (by decide)
      | exact absurd (issues_repeatCheck_sub h) (by decide)
      | exact absurd (issues_seqCheck_sub h) (by decide)
      | exact absurd (issues_commonCheck_sub h) (by decide)
      | (rcases issues_dobCheck_sub h with h2 | h2 <;> exact absurd h2 (by decide))
      | (rcases issues_lengthCheck_sub h with h2 | h2 <;> exact absurd h2 (by decide))
  · intro h
    exact Or.inr (Or.inr (Or.inr (Or.inr (Or.inl ((two_classes_classCheck password).mpr h)))))

theorem no_special_mem_analyze (password firstName lastName dob : String) :
    Issue.NO_SPECIAL_CHARS ∈ (analyze_password password firstName lastName dob).issues ↔
      classCount (char_classes password) = 3 ∧ (char_classes password).special = false := by
  show Issue.NO_SPECIAL_CHARS ∈ analyzeIssues password firstName lastName dob ↔ _
  rw [mem_analyzeIssues]
  constructor
  · rintro (h | h | h | h | h | h | h | h) <;>
      first
      | exact (no_special_classCheck password).mp h
      | exact absurd (issues_firstNameCheck_sub h) (by decide)
      | exact absurd (issues_lastNameCheck_sub h) (by decide)
      | exact absurd (issues_repeatCheck_sub h) (by decide)
      | exact absurd (issues_seqCheck_sub h) (by decide)
      | exact absurd (issues_commonCheck_sub h) (by decide)
      | (rcases issues_dobCheck_sub h with h2 | h2 <;> exact absurd h2 (by decide))
      | (rcases issues_lengthCheck_sub h with h2 | h2 <;> exact absurd h2 (by decide))
  · intro h
    exact Or.inr (Or.inr (Or.inr (Or.inr (Or.inl ((no_special_classCheck password).mpr h)))))

theorem contains_first_firstNameCheck (p f : String) :
    Issue.CONTAINS_FIRST_NAME ∈ (firstNameCheck p f).issues ↔ f ≠ "" ∧ strIn f p := by
  rw [firstNameCheck]
  split_ifs with h <;> simp [h]

/-- C7: the length check of analyze, applied to the raw password, uses mutually
exclusive bands: length below 8 records TOO_SHORT with penalty 4; length 8..11
records MEDIUM_LENGTH with penalty 2; length 12..15 records no issue and only
the positive reinforcement recommendation; length 16 and above records no issue
and no recommendation from this step. -/
theorem analyze_length_bands (password firstName lastName dob : String) :
    (password.length < 8 →
      lengthCheck password = ⟨[Issue.TOO_SHORT], [RecKind.USE_AT_LEAST_12], 4⟩) ∧
    (8 ≤ password.length ∧ password.length < 12 →
      lengthCheck password = ⟨[Issue.MEDIUM_LENGTH], [RecKind.PREFER_12_TO_16], 2⟩) ∧
    (12 ≤ password.length ∧ password.length < 16 →
      lengthCheck password = ⟨[], [RecKind.GOOD_LENGTH_NOTE], 0⟩) ∧
    (16 ≤ password.length → lengthCheck password = ⟨[], [], 0⟩) ∧
    (Issue.TOO_SHORT ∈ (analyze_password password firstName lastName dob).issues ↔
      password.length < 8) ∧
    (Issue.MEDIUM_LENGTH ∈ (analyze_password password firstName lastName dob).issues ↔
      8 ≤ password.length ∧ password.length < 12) := by
  refine ⟨?_, ?_, ?_, ?_, too_short_mem_analyze password firstName lastName dob,
    medium_mem_analyze password firstName lastName dob⟩
  · intro h
    rw [lengthCheck, if_pos h]
  · rintro ⟨h1, h2⟩
    rw [lengthCheck, if_neg (by omega), if_pos h2]
  · rintro ⟨h1, h2⟩
    rw [lengthCheck, if_neg (by omega), if_neg (by omega), if_pos h2]
  · intro h
    rw [lengthCheck, if_neg (by omega), if_neg (by omega), if_neg (by omega)]

theorem analyze_length_bands_witness :
    lengthCheck "abc" = ⟨[Issue.TOO_SHORT], [RecKind.USE_AT_LEAST_12], 4⟩ ∧
    Issue.TOO_SHORT ∈ (analyze_password "abc" "" "" "x").issues :=
  ⟨(analyze_length_bands "abc" "" "" "x").1 (by decide),
   ((analyze_length_bands "abc" "" "" "x").2.2.2.2.1).mpr (by decide)⟩

/-- C8: the character class check counts the four class booleans and applies
mutually exclusive cases: at most one class records SINGLE_CHAR_CLASS with
penalty 4; exactly two records TWO_CHAR_CLASSES with penalty 2; exactly three
with the special class absent records NO_SPECIAL_CHARS with penalty 1;
otherwise, four classes or three classes including special, no issue. -/
theorem analyze_class_cases (password firstName lastName dob : String) :
    (classCount (char_classes password) ≤ 1 →
      classCheck password = ⟨[Issue.SINGLE_CHAR_CLASS], [RecKind.ADD_CLASS_MIX], 4⟩) ∧
    (classCount (char_classes password) = 2 →
      classCheck password = ⟨[Issue.TWO_CHAR_CLASSES], [RecKind.ADD_THIRD_CLASS], 2⟩) ∧
    (classCount (char_classes password) = 3 ∧ (char_classes password).special = false →
      classCheck password = ⟨[Issue.NO_SPECIAL_CHARS], [RecKind.ADD_SPECIALS], 1⟩) ∧
    (classCount (char_classes password) = 4 ∨
        (classCount (char_classes password) = 3 ∧ (char_classes password).special = true) →
      classCheck password = ⟨[], [], 0⟩) ∧
    (Issue.SINGLE_CHAR_CLASS ∈ (analyze_password password firstName lastName dob).issues ↔
      classCount (char_classes password) ≤ 1) ∧
    (Issue.TWO_CHAR_CLASSES ∈ (analyze_password password firstName lastName dob).issues ↔
      classCount (char_classes password) = 2) ∧
    (Issue.NO_SPECIAL_CHARS ∈ (analyze_password password firstName lastName dob).issues ↔
      classCount (char_classes password) = 3 ∧ (char_classes password).special = false) := by
  refine ⟨?_, ?_, ?_, ?_, single_class_mem_analyze password firstName lastName dob,
    two_classes_mem_analyze password firstName lastName dob,
    no_special_mem_analyze password firstName lastName dob⟩
  · intro h
    simp only [classCheck]
    rw [if_pos h]
  · intro h
    simp only [classCheck]
    rw [if_neg (by omega), if_pos h]
  · rintro ⟨h3, hs⟩
    simp only [classCheck]
    rw [if_neg (by omega), if_neg (by omega), if_pos ⟨h3, hs⟩]
  · rintro (h4 | ⟨h3, hs⟩)
    · simp only [classCheck]
      rw [if_neg (by omega), if_neg (by omega), if_neg (by rintro ⟨he, -⟩; omega)]
    · simp only [classCheck]
      rw [if_neg (by omega), if_neg (by omega),
        if_neg (by rintro ⟨-, hff⟩; rw [hs] at hff; cases hff)]

theorem analyze_class_cases_witness :
    classCheck "aB3xy" = ⟨[Issue.NO_SPECIAL_CHARS], [RecKind.ADD_SPECIALS], 1⟩ ∧
    Issue.NO_SPECIAL_CHARS ∈ (analyze_password "aB3xy" "" "" "x").issues :=
  ⟨(analyze_class_cases "aB3xy" "" "" "x").2.2.1 (by decide),
   ((analyze_class_cases "aB3xy" "" "" "x").2.2.2.2.2.2).mpr (by decide)⟩

/-- C9: whenever the normalized first name is nonempty and occurs in the
normalized password, the result of analyze contains the CONTAINS_FIRST_NAME
issue and the pre-clamp score, 10 minus the total penalty, is at most 7. -/
theorem analyze_contains_first_name (password firstName lastName dob : String)
    (h1 : normalize firstName ≠ "")
    (h2 : strIn (normalize firstName) (normalize password)) :
    Issue.CONTAINS_FIRST_NAME ∈ (analyze_password password firstName lastName dob).issues ∧
    (10 : Int) - (totalPenalty password firstName lastName dob : Int) ≤ 7 := by
  constructor
  · show Issue.CONTAINS_FIRST_NAME ∈ analyzeIssues password firstName lastName dob
    rw [mem_analyzeIssues]
    exact Or.inl ((contains_first_firstNameCheck _ _).mpr ⟨h1, h2⟩)
  · have hc : firstNameCheck (normalize password) (normalize firstName) =
        ⟨[Issue.CONTAINS_FIRST_NAME], [RecKind.AVOID_FIRST_NAME], 3⟩ := by
      rw [firstNameCheck, if_pos ⟨h1, h2⟩]
    have h3 : 3 ≤ totalPenalty password firstName lastName dob := by
      simp only [totalPenalty, analyzeChecks, List.map_cons, List.map_nil, List.sum_cons,
        List.sum_nil, hc]
      omega
    omega

theorem analyze_contains_first_name_witness :
    normalize "John" ≠ "" ∧ strIn (normalize "John") (normalize "Johnny123!") ∧
    Issue.CONTAINS_FIRST_NAME ∈
      (analyze_password "Johnny123!" "John" "Smith" "01.01.2000").issues :=
  ⟨by decide, by decide,
   (analyze_contains_first_name "Johnny123!" "John" "Smith" "01.01.2000"
     (by decide) (by decide)).1⟩

/-- C10: the score of the result of analyze equals 10 exactly when its issue
list is empty; every recorded issue carries a penalty of at least one, so a
nonempty issue list forces a score of at most 9, and with no issue no penalty
is applied and the score stays 10. -/
theorem analyze_score_ten_iff (password firstName lastName dob : String) :
    ((analyze_password password firstName lastName dob).score = 10 ↔
      (analyze_password password firstName lastName dob).issues = []) ∧
    ((analyze_password password firstName lastName dob).issues ≠ [] →
      (analyze_password password firstName lastName dob).score ≤ 9) := by
  have key : analyzeIssues password firstName lastName dob = [] ↔
      totalPenalty password firstName lastName dob = 0 := by
    simp only [analyzeIssues, totalPenalty, analyzeChecks, List.map_cons, List.map_nil,
      List.flatten_cons, List.flatten_nil, List.sum_cons, List.sum_nil, List.append_nil,
      List.append_eq_nil, Nat.add_eq_zero]
    rw [issues_nil_iff_pen_firstNameCheck, issues_nil_iff_pen_lastNameCheck,
      issues_nil_iff_pen_dobCheck, issues_nil_iff_pen_lengthCheck,
      issues_nil_iff_pen_classCheck, issues_nil_iff_pen_repeatCheck,
      issues_nil_iff_pen_seqCheck, issues_nil_iff_pen_commonCheck]
    tauto
  constructor
  · show max 1 (min 10 (10 - (totalPenalty password firstName lastName dob : Int))) = 10 ↔
      analyzeIssues password firstName lastName dob = []
    rw [key]
    rw [max_def, min_def]
    split_ifs <;> omega
  · intro hne
    have hz : totalPenalty password firstName lastName dob ≠ 0 := fun h0 => hne (key.mpr h0)
    show max 1 (min 10 (10 - (totalPenalty password firstName lastName dob : Int))) ≤ 9
    rw [max_def, min_def]
    split_ifs <;> omega

theorem analyze_score_ten_iff_witness :
    (analyze_password "aaa" "" "" "x").issues ≠ [] ∧
    (analyze_password "aaa" "" "" "x").score ≤ 9 :=
  ⟨by decide, (analyze_score_ten_iff "aaa" "" "" "x").2 (by decide)⟩

/-- C2: analyze is a total function and a date parsing failure is converted
into the INVALID_DOB_FORMAT issue with penalty 1 while every other check still
runs: the issue list is exactly the concatenation of the contributions of the
eight checks with the date step contributing the single invalid format issue,
the total penalty includes exactly 1 for the date step, and the score is the
clamped value of 10 minus the total penalty. -/
theorem analyze_invalid_dob_continues (password firstName lastName dob : String)
    (h : extract_birth_tokens dob = Except.error DateError.InvalidDateFormat) :
    (analyze_password password firstName lastName dob).issues =
      (firstNameCheck (normalize password) (normalize firstName)).issues ++
      ((lastNameCheck (normalize password) (normalize lastName)).issues ++
      ([Issue.INVALID_DOB_FORMAT] ++
      ((lengthCheck password).issues ++
      ((classCheck password).issues ++
      ((repeatCheck password).issues ++
      ((seqCheck password).issues ++ (commonCheck password).issues)))))) ∧
    totalPenalty password firstName lastName dob =
      (firstNameCheck (normalize password) (normalize firstName)).pen +
      ((lastNameCheck (normalize password) (normalize lastName)).pen +
      (1 +
      ((lengthCheck password).pen +
      ((classCheck password).pen +
      ((repeatCheck password).pen +
      ((seqCheck password).pen + (commonCheck password).pen)))))) ∧
    (analyze_password password firstName lastName dob).score =
      max 1 (min 10 (10 - (totalPenalty password firstName lastName dob : Int))) ∧
    Issue.INVALID_DOB_FORMAT ∈ (analyze_password password firstName lastName dob).issues := by
  have hd := dobCheck_error password dob h
  refine ⟨?_, ?_, rfl, ?_⟩
  · show analyzeIssues password firstName lastName dob = _
    simp [analyzeIssues, analyzeChecks, hd]
  · simp [totalPenalty, analyzeChecks, hd]
  · show Issue.INVALID_DOB_FORMAT ∈ analyzeIssues password firstName lastName dob
    rw [mem_analyzeIssues]
    refine Or.inr (Or.inr (Or.inl ?_))
    rw [hd]
    simp

theorem analyze_invalid_dob_continues_witness :
    extract_birth_tokens "not-a-date" = Except.error DateError.InvalidDateFormat ∧
    Issue.INVALID_DOB_FORMAT ∈ (analyze_password "abc" "Jo" "Do" "not-a-date").issues :=
  ⟨rfl, (analyze_invalid_dob_continues "abc" "Jo" "Do" "not-a-date" rfl).2.2.2⟩

/-! ### Structure of period-splitting, for the date parser characterization -/

theorem splitDots_ne_nil (l : List Char) : splitDots l ≠ [] := by
  induction l with
  | nil => simp [splitDots]
  | cons c cs ih =>
    simp only [splitDots]
    split_ifs with h
    · simp
    · rcases hsc : splitDots cs with _ | ⟨f, rest⟩ <;> simp

theorem splitDots_nodot (l : List Char) (h : '.' ∉ l) : splitDots l = [l] := by
  induction l with
  | nil => rfl
  | cons c cs ih =>
    have hc : c ≠ '.' := by
      rintro rfl
      exact h (List.mem_cons_self _ _)
    have hcs : '.' ∉ cs := fun hm => h (List.mem_cons_of_mem _ hm)
    simp only [splitDots]
    rw [if_neg hc, ih hcs]

theorem splitDots_append (a r : List Char) (h : '.' ∉ a) :
    splitDots (a ++ '.' :: r) = a :: splitDots r := by
  induction a with
  | nil => simp [splitDots]
  | cons c cs ih =>
    have hc : c ≠ '.' := by
      rintro rfl
      exact h (List.mem_cons_self _ _)
    have hcs : '.' ∉ cs := fun hm => h (List.mem_cons_of_mem _ hm)
    rw [List.cons_append]
    simp only [splitDots]
    rw [if_neg hc, ih hcs]

theorem splitDots_cons_inv (l a : List Char) (rest : List (List Char))
    (h : splitDots l = a :: rest) :
    '.' ∉ a ∧ (rest = [] → l = a) ∧
      (rest ≠ [] → ∃ r, l = a ++ '.' :: r ∧ splitDots r = rest) := by
  induction l generalizing a rest with
  | nil =>
    rw [show splitDots [] = [[]] from rfl] at h
    cases h
    refine ⟨by simp, fun _ => rfl, fun hne => absurd rfl hne⟩
  | cons c cs ih =>
    by_cases hc : c = '.'
    · subst hc
      rw [show splitDots ('.' :: cs) = [] :: splitDots cs from by simp [splitDots]] at h
      cases h
      refine ⟨by simp, ?_, ?_⟩
      · intro he
        exact absurd he (splitDots_ne_nil cs)
      · intro _
        exact ⟨cs, rfl, rfl⟩
    · rcases hsc : splitDots cs with _ | ⟨f, rest2⟩
      · exact absurd hsc (splitDots_ne_nil cs)
      · rw [show splitDots (c :: cs) = (c :: f) :: rest2 from by simp [splitDots, hsc, hc]] at h
        cases h
        obtain ⟨hf, h1, h2⟩ := ih f rest hsc
        refine ⟨?_, ?_, ?_⟩
        · intro hm
          rcases List.mem_cons.mp hm with he | hm2
          · exact hc he.symm
          · exact hf hm2
        · intro he
          rw [h1 he]
        · intro hne
          obtain ⟨r, hcs2, hsr⟩ := h2 hne
          refine ⟨r, ?_, hsr⟩
          rw [hcs2]
          rfl

theorem splitDots_eq_three (l f1 f2 f3 : List Char) :
    splitDots l = [f1, f2, f3] ↔
      '.' ∉ f1 ∧ '.' ∉ f2 ∧ '.' ∉ f3 ∧ f1 ++ '.' :: (f2 ++ '.' :: f3) = l := by
  constructor
  · intro h
    obtain ⟨n1, -, h2⟩ := splitDots_cons_inv l f1 [f2, f3] h
    obtain ⟨r, hl, hr⟩ := h2 (by simp)
    obtain ⟨n2, -, h4⟩ := splitDots_cons_inv r f2 [f3] hr
    obtain ⟨r2, hrl, hrr⟩ := h4 (by simp)
    obtain ⟨n3, h5, -⟩ := splitDots_cons_inv r2 f3 [] hrr
    have he3 : r2 = f3 := h5 rfl
    subst he3
    refine ⟨n1, n2, n3, ?_⟩
    rw [hl, hrl]
  · rintro ⟨n1, n2, n3, rfl⟩
    rw [splitDots_append _ _ n1, splitDots_append _ _ n2, splitDots_nodot _ n3]

theorem daysInMonth_le_31 (y m : Nat) : daysInMonth y m ≤ 31 := by
  rw [daysInMonth]
  split_ifs <;> omega

theorem parseDate_ne_none_iff (s : String) : parseDate s ≠ none ↔ IsFlexDate s := by
  constructor
  · intro h
    rw [parseDate] at h
    split at h
    · next f1 f2 f3 heq =>
      split_ifs at h with hc
      · obtain ⟨hd1, hl1, hd2, hl2, hd3, hl3, hv1, hv2, hv3, hv4, hv5, hv6⟩ := hc
        obtain ⟨n1, n2, n3, hdec⟩ := (splitDots_eq_three _ _ _ _).mp heq
        exact ⟨f1, f2, f3, hdec, hd1, hd2, hd3, hl1, hl2, hl3, hv1, hv3, hv4, hv5, hv6⟩
      · exact absurd rfl h
    · next => exact absurd rfl h
  · rintro ⟨f1, f2, f3, hdec, hd1, hd2, hd3, hl1, hl2, hl3, hv1, hv3, hv4, hv5, hv6⟩
    have n1 : '.' ∉ f1 := fun hm => absurd (hd1 '.' hm) (by decide)
    have n2 : '.' ∉ f2 := fun hm => absurd (hd2 '.' hm) (by decide)
    have n3 : '.' ∉ f3 := fun hm => absurd (hd3 '.' hm) (by decide)
    have hsp : splitDots s.data = [f1, f2, f3] :=
      (splitDots_eq_three _ _ _ _).mpr ⟨n1, n2, n3, hdec⟩
    have hv2 : digitsVal f1 ≤ 31 := le_trans hv6 (daysInMonth_le_31 _ _)
    rw [parseDate, hsp]
    dsimp only
    rw [if_pos ⟨hd1, hl1, hd2, hl2, hd3, hl3, hv1, hv2, hv3, hv4, hv5, hv6⟩]
    simp

theorem extract_error_iff_parse_none (s : String) :
    extract_birth_tokens s = Except.error DateError.InvalidDateFormat ↔ parseDate s = none := by
  rw [extract_birth_tokens]
  cases hp : parseDate s with
  | none => simp
  | some v =>
    obtain ⟨d, m, y⟩ := v
    simp

/-- C4: for every date string that the parser accepts with day d, month m and
year y, the extractor returns exactly the set of the ten derived strings: the
two-digit day, the two-digit month, the four-digit year, the two-digit year,
and the six concatenations day+month, month+day, year+month+day,
day+month+year, two-digit-year+month+day and day+month+two-digit-year. -/
theorem extract_birth_tokens_parsed (dob : String) (d m y : Nat)
    (h : parseDate dob = some (d, m, y)) :
    extract_birth_tokens dob = Except.ok
      ({pad2 d, pad2 m, pad4 y, (pad4 y).drop 2,
        pad2 d ++ pad2 m, pad2 m ++ pad2 d,
        pad4 y ++ pad2 m ++ pad2 d, pad2 d ++ pad2 m ++ pad4 y,
        (pad4 y).drop 2 ++ pad2 m ++ pad2 d, pad2 d ++ pad2 m ++ (pad4 y).drop 2} :
        Finset String) := by
  rw [extract_birth_tokens, h]

theorem extract_birth_tokens_parsed_witness :
    parseDate "15.06.1990" = some (15, 6, 1990) ∧
    extract_birth_tokens "15.06.1990" = Except.ok
      ({"15", "06", "1990", "90", "1506", "0615",
        "19900615", "15061990", "900615", "150690"} : Finset String) := by
  refine ⟨by decide, ?_⟩
  rw [extract_birth_tokens_parsed "15.06.1990" 15 6 1990 (by decide)]
  congr 1

/-- C5 (amended): extractBirthTokens fails with InvalidDateFormat exactly for
the input strings that are not a real calendar date of a positive year written
as day.month.year with the day and the month of one or two digits each and the
year of exactly four digits; in particular it fails on 31.02.2000. -/
theorem extract_birth_tokens_error_iff :
    (∀ s : String,
      extract_birth_tokens s = Except.error DateError.InvalidDateFormat ↔ ¬ IsFlexDate s) ∧
    extract_birth_tokens "31.02.2000" = Except.error DateError.InvalidDateFormat := by
  refine ⟨fun s => ?_, ?_⟩
  · rw [extract_error_iff_parse_none s, ← parseDate_ne_none_iff s]
    tauto
  · rw [extract_error_iff_parse_none]
    decide

theorem extract_birth_tokens_error_iff_witness : ¬ IsFlexDate "31.02.2000" :=
  (extract_birth_tokens_error_iff.1 "31.02.2000").mp extract_birth_tokens_error_iff.2

/-- C5 counterexample: the claim that extractBirthTokens fails on every string
that is not a real calendar date written exactly in the two-digit DD.MM.YYYY
pattern is false: the string 1.1.1990 is not in that pattern, yet the
extraction succeeds, because the strptime directives of the source also accept
day and month fields written with a single digit. -/
theorem extract_birth_tokens_strict_counterexample :
    isStrictDDMMYYYY "1.1.1990" = false ∧
    extract_birth_tokens "1.1.1990" ≠ Except.error DateError.InvalidDateFormat := by
  refine ⟨by decide, ?_⟩
  have h1 : parseDate "1.1.1990" = some (1, 1, 1990) := by decide
  intro hcontra
  rw [extract_birth_tokens, h1] at hcontra
  simp at hcontra

/-- C6: hasSequence is true exactly when some contiguous four-character window
of one of the five reference strings occurs as a substring of the lowercased
password, every window of every reference being checked; in particular it is
true on myqwerty1 and false on Xk9Lm2Pq. -/
theorem has_sequences_iff :
    (∀ password : String, has_sequences password = true ↔
      ∃ s ∈ seqRefs, ∃ i, i + 4 ≤ s.length ∧
        ∃ u v, u ++ (s.data.drop i).take 4 ++ v = (lowerStr password).data) ∧
    has_sequences "myqwerty1" = true ∧ has_sequences "Xk9Lm2Pq" = false := by
  refine ⟨fun password => ?_, by decide, by decide⟩
  simp only [has_sequences, List.any_eq_true, List.mem_range, decide_eq_true_eq]
  constructor
  · rintro ⟨s, hs, i, hi, u, v, huv⟩
    exact ⟨s, hs, i, by omega, u, v, huv⟩
  · rintro ⟨s, hs, i, hi, u, v, huv⟩
    exact ⟨s, hs, i, by omega, u, v, huv⟩

theorem analyze_recommendations_dedup_witness :
    (analyze_password "aaa" "" "" "x").recommendations.Nodup :=
  (analyze_recommendations_dedup "aaa" "" "" "x").1

theorem has_sequences_iff_witness :
    ∃ s ∈ seqRefs, ∃ i, i + 4 ≤ s.length ∧
      ∃ u v, u ++ (s.data.drop i).take 4 ++ v = (lowerStr "myqwerty1").data :=
  (has_sequences_iff.1 "myqwerty1").mp has_sequences_iff.2.1

end Lab1
